import Mathlib

/-!
Shallow embedding of `examples/esim_booking_bot.py` (an eSIM appointment-booking
bot built on python-telegram-bot-calendar), together with proofs about its
slot registry, booking store, field validators and conversation state machine.

Modelling conventions:
* Python `dict`s are association lists `List (k × v)`; `alGet`/`alSet`/`alPop`
  mirror `d.get`, `d[k] = v` (update-in-place or append, preserving insertion
  order) and `d.pop(k, None)`.
* `datetime.date` values are `PDate` (day/month/year as naturals);
  `datetime.time` slot values are their hour as a natural number
  (`TIME_SLOTS = [time(8), time(10), time(12), time(14), time(16)]`).
* Strings are Lean `String`s over the ASCII fragment: `str.strip()`,
  `str.upper()`, `str.isalnum()`, `str.isdigit()` are modelled on ASCII
  characters (the repository's prompts and formats are all ASCII).
* Handlers mutate `self` in place in Python; here each handler is a function
  `BotState → ... → BotState`. Outbound chat messages are ignored except where
  a claim mentions the reported text.
-/

set_option autoImplicit false

namespace EsimBot

/-! ## Association lists (model of Python `dict`) -/

variable {α : Type} {β : Type}

/-- `d.get(k)` / `d.get(k, None)`: first value stored under `k`, if any. -/
def alGet [DecidableEq α] (l : List (α × β)) (k : α) : Option β :=
  match l with
  | [] => none
  | (k', v) :: rest => if k' = k then some v else alGet rest k

/-- `d[k] = v`: replace the value at an existing key in place, otherwise
append the new pair (Python dicts preserve insertion order). -/
def alSet [DecidableEq α] (l : List (α × β)) (k : α) (v : β) : List (α × β) :=
  match l with
  | [] => [(k, v)]
  | (k', v') :: rest => if k' = k then (k, v) :: rest else (k', v') :: alSet rest k v

/-- `d.pop(k, None)`: remove the entry at `k` if present. -/
def alPop [DecidableEq α] (l : List (α × β)) (k : α) : List (α × β) :=
  match l with
  | [] => []
  | (k', v') :: rest => if k' = k then rest else (k', v') :: alPop rest k

@[simp] theorem alGet_nil [DecidableEq α] (k : α) : alGet ([] : List (α × β)) k = none := rfl

@[simp] theorem alGet_cons [DecidableEq α] (k k' : α) (v : β) (rest : List (α × β)) :
    alGet ((k', v) :: rest) k = if k' = k then some v else alGet rest k := rfl

theorem alGet_alSet_self [DecidableEq α] (l : List (α × β)) (k : α) (v : β) :
    alGet (alSet l k v) k = some v := by
  induction l with
  | nil => simp [alSet, alGet]
  | cons hd tl ih =>
    obtain ⟨k', v'⟩ := hd
    by_cases h : k' = k <;> simp [alSet, alGet, h, ih]

theorem alGet_alSet_ne [DecidableEq α] (l : List (α × β)) (k k' : α) (v : β)
    (h : k ≠ k') : alGet (alSet l k v) k' = alGet l k' := by
  induction l with
  | nil => simp [alSet, alGet, h]
  | cons hd tl ih =>
    obtain ⟨k₀, v₀⟩ := hd
    by_cases h₀ : k₀ = k
    · subst h₀; simp [alSet, alGet, h]
    · simp only [alSet, if_neg h₀]
      by_cases h₁ : k₀ = k' <;> simp [alGet, h₁, ih]

theorem alGet_eq_none_of_not_mem [DecidableEq α] (l : List (α × β)) (k : α)
    (h : k ∉ l.map Prod.fst) : alGet l k = none := by
  induction l with
  | nil => rfl
  | cons hd tl ih =>
    obtain ⟨k', v'⟩ := hd
    simp only [List.map_cons, List.mem_cons] at h
    push_neg at h
    have hne : k' ≠ k := Ne.symm h.1
    simp [alGet, hne, ih h.2]

theorem alGet_alPop_self [DecidableEq α] (l : List (α × β)) (k : α)
    (hnd : (l.map Prod.fst).Nodup) : alGet (alPop l k) k = none := by
  induction l with
  | nil => simp [alPop]
  | cons hd tl ih =>
    obtain ⟨k', v'⟩ := hd
    simp only [List.map_cons, List.nodup_cons] at hnd
    by_cases h : k' = k
    · subst h
      simp only [alPop, if_pos rfl]
      exact alGet_eq_none_of_not_mem tl _ hnd.1
    · simp only [alPop, if_neg h, alGet, if_neg h]
      exact ih hnd.2

theorem alGet_alPop_ne [DecidableEq α] (l : List (α × β)) (k k' : α)
    (h : k ≠ k') : alGet (alPop l k) k' = alGet l k' := by
  induction l with
  | nil => simp [alPop]
  | cons hd tl ih =>
    obtain ⟨k₀, v₀⟩ := hd
    by_cases h₀ : k₀ = k
    · subst h₀; simp [alPop, alGet, h]
    · simp only [alPop, if_neg h₀]
      by_cases h₁ : k₀ = k' <;> simp [alGet, h₁, ih]

/-! ## Dates and Python string helpers -/

/-- A `datetime.date`: calendar day, month, year. -/
structure PDate where
  day : Nat
  month : Nat
  year : Nat
deriving DecidableEq, Repr

/-- Python `str.strip()` on ASCII input: drop leading and trailing whitespace. -/
def pyStrip (s : String) : String :=
  (((s.data.dropWhile Char.isWhitespace).reverse.dropWhile Char.isWhitespace).reverse).asString

/-- Python `str.upper()` on ASCII input. -/
def pyUpper (s : String) : String :=
  (s.data.map Char.toUpper).asString

/-- Python `str.replace(" ", "")`: remove every space character. -/
def removeSpaces (s : String) : String :=
  (s.data.filter (fun c => c ≠ ' ')).asString

/-- Python `str.isalnum()` on ASCII input: nonempty and every character
alphanumeric. -/
def pyIsAlnum (s : String) : Bool :=
  !s.data.isEmpty && s.data.all Char.isAlphanum

/-- Python `str.isdigit()` on ASCII input: nonempty and every character a digit. -/
def pyIsDigit (s : String) : Bool :=
  !s.data.isEmpty && s.data.all Char.isDigit

def isLeap (y : Nat) : Bool :=
  (y % 4 == 0 && y % 100 != 0) || y % 400 == 0

def daysInMonth (m y : Nat) : Nat :=
  if m = 2 then (if isLeap y then 29 else 28)
  else if m = 4 ∨ m = 6 ∨ m = 9 ∨ m = 11 then 30
  else 31

/-- Modelled from the Python standard library: `datetime.strptime(s, "%d/%m/%Y").date()`
(the library call the repository makes; the library itself is not under `src/`).
Accepts `day/month/year` with 1-2 digit day and month, 4-digit year, and a
calendar-valid day; rejects anything else (Python raises `ValueError`). -/
def parseDMY (s : String) : Option PDate :=
  match s.splitOn "/" with
  | [d, m, y] =>
    if pyIsDigit d && pyIsDigit m && pyIsDigit y
        && d.length ≤ 2 && m.length ≤ 2 && y.length == 4 then
      let dn := d.toNat?.getD 0
      let mn := m.toNat?.getD 0
      let yn := y.toNat?.getD 0
      if 1 ≤ mn && mn ≤ 12 && 1 ≤ dn && dn ≤ daysInMonth mn yn then
        some ⟨dn, mn, yn⟩
      else none
    else none
  | _ => none

/-! ## Field validators

Each parser mirrors a `_parse_*` method: it returns the triple
`(valid, value, error)` the Python method returns, with Python's heterogeneous
`object` values modelled by `PyVal`. -/

/-- A value stored in the in-progress session dictionary: Python `None`, a
string, or a parsed date. -/
inductive PyVal where
  | vNone
  | vStr (s : String)
  | vDate (d : PDate)
deriving DecidableEq, Repr

/-- `_parse_required_text`. -/
def parseRequiredText (raw : String) : Bool × PyVal × Option String :=
  let cleaned := pyStrip raw
  (cleaned ≠ "", .vStr cleaned, some "This field is required.")

/-- `_parse_optional_text`. -/
def parseOptionalText (raw : String) : Bool × PyVal × Option String :=
  let cleaned := pyStrip raw
  (true, if cleaned = "" then .vNone else .vStr cleaned, none)

/-- `_parse_required_date`. -/
def parseRequiredDate (raw : String) : Bool × PyVal × Option String :=
  match parseDMY (pyStrip raw) with
  | some d => (true, .vDate d, none)
  | none => (false, .vNone, some "Invalid format. Use DD/MM/YYYY.")

/-- `_parse_optional_date`. -/
def parseOptionalDate (raw : String) : Bool × PyVal × Option String :=
  let cleaned := pyStrip raw
  if cleaned = "" then (true, .vNone, none)
  else match parseDMY cleaned with
  | some d => (true, .vDate d, none)
  | none => (false, .vNone, some "Invalid format. Use DD/MM/YYYY.")

/-- `_parse_postal_code`: strip, uppercase; valid iff the cleaned string has
length 7, its character at index 3 is a space, and the string with every space
removed satisfies `isalnum`. -/
def parsePostalCode (raw : String) : Bool × PyVal × Option String :=
  let cleaned := pyUpper (pyStrip raw)
  let valid := cleaned.length == 7 && cleaned.data.get? 3 == some ' '
      && pyIsAlnum (removeSpaces cleaned)
  (valid, if valid then .vStr cleaned else .vNone, some "Please use the format A2A 1B4.")

/-- The postal-code validity condition as the spec words it ("the cleaned
string has exactly 7 characters, its 4th character is a space, and all of its
other characters are alphanumeric"), stated for comparison with the code's
`parsePostalCode`. -/
def specPostalValid (raw : String) : Bool :=
  let cleaned := pyUpper (pyStrip raw)
  cleaned.length == 7 && cleaned.data.get? 3 == some ' '
    && (List.range 7).all (fun i => i == 3 || (cleaned.data.get? i).elim false Char.isAlphanum)

/-- The postal-code validity condition as the code actually behaves, worded
independently of the implementation: the cleaned string has exactly 7
characters, its 4th character is a space, at least one character is not a
space, and every character is a space or alphanumeric (spaces at positions
other than the 4th are tolerated, because the code removes all spaces before
its alphanumeric check). -/
def amendedPostalValid (raw : String) : Bool :=
  let cs := (pyUpper (pyStrip raw)).data
  cs.length == 7 && cs.get? 3 == some ' '
    && cs.any (fun c => c ≠ ' ') && cs.all (fun c => c = ' ' || c.isAlphanum)

/-! ## Data model -/

/-- `TIME_SLOTS`: the fixed five-slot enumeration, each slot given by its hour
(`time(hour=8)` … `time(hour=16)`). -/
def TIME_SLOTS : List Nat := [8, 10, 12, 14, 16]

/-- `CATEGORIES`. -/
def CATEGORIES : List String :=
  ["New registration", "Mobile SIM activation", "Technical support"]

/-- The `Identity` dataclass. -/
structure Identity where
  first_name : String := ""
  middle_name : Option String := none
  last_name : String := ""
  date_of_birth : PDate
  drivers_license : Option String := none
  license_issue : Option PDate := none
  license_expiry : Option PDate := none
deriving DecidableEq, Repr

/-- The `Address` dataclass. -/
structure Address where
  suite : Option String := none
  street_number : String := ""
  street_name : String := ""
  city : String := ""
  province : String := ""
  postal_code : String := ""
deriving DecidableEq, Repr

/-- The `BookingRequest` dataclass. `booking_id` is a `uuid4().hex` in Python;
here it is supplied by the caller (modelling the fresh-id draw). -/
structure BookingRequest where
  user_id : Nat
  category : String
  appointment_date : PDate
  time_slot : Nat
  identity : Identity
  address : Address
  status : String := "pending_user"
  booking_id : String
deriving DecidableEq, Repr

/-- One user's `in_progress` session dictionary. The Python code stores
heterogeneous values under string keys; the fixed keys become fields
(`field_index` with default 0 models `progress.get("field_index", 0)`), and
the thirteen form-field values live in the `fields` association list under
their form-field keys. -/
structure Progress where
  stage : String
  category : Option String := none
  date : Option PDate := none
  time : Option Nat := none
  field_index : Nat := 0
  fields : List (String × PyVal) := []
  preview : Option BookingRequest := none
deriving DecidableEq, Repr

/-- The slot registry `booked_slots : Dict[date, Dict[time, str]]`. -/
def SlotRegistry : Type := List (PDate × List (Nat × String))

instance : DecidableEq SlotRegistry := by unfold SlotRegistry; infer_instance

instance : Repr SlotRegistry := by unfold SlotRegistry; infer_instance

/-- The mutable state of `EsimBookingBot`: the booking store (`requests`,
`user_requests`), the slot registry (`booked_slots`) and the per-user
sessions (`in_progress`). -/
structure BotState where
  requests : List (String × BookingRequest) := []
  user_requests : List (Nat × List String) := []
  booked_slots : SlotRegistry := []
  in_progress : List (Nat × Progress) := []
deriving DecidableEq, Repr

/-! ## Slot registry operations -/

/-- `_available_slots` on the registry: the fixed slot enumeration minus the
slots present in the registry's inner dict for that date
(`[slot for slot in TIME_SLOTS if slot not in booked_for_day]`). -/
def availableSlotsReg (bk : SlotRegistry) (d : PDate) : List Nat :=
  let booked_for_day := (alGet bk d).getD []
  TIME_SLOTS.filter (fun slot => (alGet booked_for_day slot).isNone)

/-- The booking id the registry holds for `(d, t)`, if any
(`booked_slots.get(d, {}).get(t)`). -/
def slotHolder (bk : SlotRegistry) (d : PDate) (t : Nat) : Option String :=
  alGet ((alGet bk d).getD []) t

/-- Whether the registry holds a reservation for `(d, t)`
(`t in booked_slots.get(d, {})`). -/
def slotReservedReg (bk : SlotRegistry) (d : PDate) (t : Nat) : Bool :=
  (slotHolder bk d t).isSome

/-- The recording write of `_save_request`, line 250:
`booked_slots.setdefault(date, {})[slot] = booking_id`. -/
def recordSlot (bk : SlotRegistry) (d : PDate) (t : Nat) (bid : String) : SlotRegistry :=
  alSet bk d (alSet ((alGet bk d).getD []) t bid)

/-- The release step of `_cancel_request`, line 255:
`booked_slots.get(date, {}).pop(slot, None)` — a no-op when the date has no
inner dict (popping from the fresh `{}` mutates nothing stored). -/
def releaseSlot (bk : SlotRegistry) (d : PDate) (t : Nat) : SlotRegistry :=
  match alGet bk d with
  | none => bk
  | some m => alSet bk d (alPop m t)

/-- The code's slot-reservation step: `_finalize_booking` re-checks that the
slot is still offered (`request.time_slot not in self._available_slots(...)`,
line 204) and only on success does `_save_request` record it (line 250).
`none` models the conflict path, which routes the user back to time
selection. -/
def reserve (bk : SlotRegistry) (d : PDate) (t : Nat) (bid : String) :
    Option SlotRegistry :=
  if t ∈ availableSlotsReg bk d then some (recordSlot bk d t bid) else none

/-- `_available_slots` on the bot state. -/
def availableSlots (st : BotState) (d : PDate) : List Nat :=
  availableSlotsReg st.booked_slots d

/-! ## Booking store and approval workflow -/

/-- `_save_request`: store under the primary index, append to the user's index
(`setdefault(user_id, []).append(...)`), record the slot, then
`_reset_progress` (pop the user's session). -/
def saveRequest (st : BotState) (req : BookingRequest) : BotState :=
  { st with
    requests := alSet st.requests req.booking_id req
    user_requests := alSet st.user_requests req.user_id
      (((alGet st.user_requests req.user_id).getD []) ++ [req.booking_id])
    booked_slots := recordSlot st.booked_slots req.appointment_date req.time_slot req.booking_id
    in_progress := alPop st.in_progress req.user_id }

/-- `_cancel_request`: pop the primary index (returning `None` if absent),
release the slot, and remove the first occurrence of the id from the owner's
index (`if booking_id in user_list: user_list.remove(booking_id)`, an in-place
mutation of the stored list when the user has one). -/
def cancelRequest (st : BotState) (bid : String) : BotState × Option BookingRequest :=
  match alGet st.requests bid with
  | none => (st, none)
  | some req =>
    let st₁ := { st with
      requests := alPop st.requests bid
      booked_slots := releaseSlot st.booked_slots req.appointment_date req.time_slot }
    let st₂ := match alGet st₁.user_requests req.user_id with
      | none => st₁
      | some l => { st₁ with user_requests := alSet st₁.user_requests req.user_id (l.erase bid) }
    (st₂, some req)

/-- `_cancel_booking`: run `_cancel_request` and edit the message to
"Booking canceled." or "Nothing to cancel.". -/
def cancelBooking (st : BotState) (bid : String) : BotState × String :=
  match cancelRequest st bid with
  | (st', some _) => (st', "Booking canceled.")
  | (st', none) => (st', "Nothing to cancel.")

/-- `_admin_decision` for callback data `admin:{decision}:{booking_id}`:
look the booking up in `requests` (answering "Booking not found." when
absent) and set its status to `accepted` when the decision is `accept`,
`denied` otherwise — the Python code mutates the stored object in place and
performs no other state change. -/
def adminDecision (st : BotState) (decision : String) (bid : String) : BotState :=
  match alGet st.requests bid with
  | none => st
  | some req =>
    let req' := { req with status := if decision = "accept" then "accepted" else "denied" }
    { st with requests := alSet st.requests bid req' }

/-! ## Conversation state machine -/

/-- The parser component of a form-field entry. -/
def FieldParser : Type := String → Bool × PyVal × Option String

/-- `self.form_fields`: the ordered 13-entry list of
`(key, prompt, parser)` triples. -/
def formFields : List (String × String × FieldParser) :=
  [("first_name", "Enter your first name:", parseRequiredText),
   ("middle_name", "Enter your middle name (leave blank if none):", parseOptionalText),
   ("last_name", "Enter your last name:", parseRequiredText),
   ("dob", "Enter your date of birth [DD/MM/YYYY]:", parseRequiredDate),
   ("license", "Driver's license number (optional, leave blank if none):", parseOptionalText),
   ("license_issue", "License issue date [DD/MM/YYYY] (optional):", parseOptionalDate),
   ("license_expiry", "License expiry date [DD/MM/YYYY] (optional):", parseOptionalDate),
   ("suite", "Suite or unit number (leave blank if none):", parseOptionalText),
   ("street_number", "Street number:", parseRequiredText),
   ("street_name", "Street name:", parseRequiredText),
   ("city", "City:", parseRequiredText),
   ("province", "Province:", parseRequiredText),
   ("postal", "Postal code (format A2A 1B4):", parsePostalCode)]

/-- `progress.get(key, default)` for the string-valued fields: the parsers
store strings under these keys, so any other stored shape falls back to the
default exactly as absence does. -/
def getStrD (fields : List (String × PyVal)) (k : String) (dflt : String) : String :=
  match alGet fields k with
  | some (.vStr s) => s
  | _ => dflt

/-- `progress.get(key)` for optional-string fields (stored `None` and absence
both read back as `None`). -/
def getOptStr (fields : List (String × PyVal)) (k : String) : Option String :=
  match alGet fields k with
  | some (.vStr s) => some s
  | _ => none

/-- `progress.get("dob", date.today())`. -/
def getDateD (fields : List (String × PyVal)) (k : String) (today : PDate) : PDate :=
  match alGet fields k with
  | some (.vDate d) => d
  | _ => today

/-- `progress.get(key)` for optional-date fields. -/
def getOptDate (fields : List (String × PyVal)) (k : String) : Option PDate :=
  match alGet fields k with
  | some (.vDate d) => some d
  | _ => none

/-- `_prompt_confirmation`: assemble `Identity`, `Address` and the draft
`BookingRequest` from the session's accumulated values and store it as the
session's `preview`. `freshId` models the `uuid4().hex` default and `today`
models `date.today()`. In the conversation flow the session always carries a
chosen date and time slot by this point; a session without them would make
Python build a request with `None` in the date/time fields, which no claim
exercises, so such sessions are left unchanged here. -/
def promptConfirmation (st : BotState) (chat : Nat) (freshId : String) (today : PDate) :
    BotState :=
  match alGet st.in_progress chat with
  | none => st
  | some prog =>
    match prog.date, prog.time with
    | some d, some t =>
      let identity : Identity :=
        { first_name := getStrD prog.fields "first_name" ""
          middle_name := getOptStr prog.fields "middle_name"
          last_name := getStrD prog.fields "last_name" ""
          date_of_birth := getDateD prog.fields "dob" today
          drivers_license := getOptStr prog.fields "license"
          license_issue := getOptDate prog.fields "license_issue"
          license_expiry := getOptDate prog.fields "license_expiry" }
      let address : Address :=
        { suite := getOptStr prog.fields "suite"
          street_number := getStrD prog.fields "street_number" ""
          street_name := getStrD prog.fields "street_name" ""
          city := getStrD prog.fields "city" ""
          province := getStrD prog.fields "province" ""
          postal_code := getStrD prog.fields "postal" "" }
      let request : BookingRequest :=
        { user_id := chat
          category := prog.category.getD ""
          appointment_date := d
          time_slot := t
          identity := identity
          address := address
          status := "pending_user"
          booking_id := freshId }
      { st with in_progress := alSet st.in_progress chat { prog with preview := some request } }
    | _, _ => st

/-- `_handle_form_field`: read the session's `field_index` (default 0), run
the parser of the field at that index on the raw text; on failure re-prompt
and change nothing; on success store the value under the field's key, and
either advance `field_index` or — when the incremented index reaches the end
of the list — call `_prompt_confirmation` without updating `field_index` or
the stage. The `none` fallbacks (no session, index out of range) are
unreachable from the router and the flow's `field_index ≤ 12` invariant;
Python would raise there. -/
def handleFormField (st : BotState) (chat : Nat) (text : String)
    (freshId : String) (today : PDate) : BotState :=
  match alGet st.in_progress chat with
  | none => st
  | some prog =>
    match formFields.get? prog.field_index with
    | none => st
    | some (key, _prompt, parser) =>
      match parser text with
      | (false, _, _) => st
      | (true, value, _) =>
        let prog₁ := { prog with fields := alSet prog.fields key value }
        if prog.field_index + 1 ≥ formFields.length then
          promptConfirmation
            { st with in_progress := alSet st.in_progress chat prog₁ } chat freshId today
        else
          let prog₂ := { prog₁ with field_index := prog.field_index + 1 }
          { st with in_progress := alSet st.in_progress chat prog₂ }

/-- `_handle_category`: accept only a listed category; on match store it and
advance the stage to `calendar` (the calendar keyboard itself is the external
widget). -/
def handleCategory (st : BotState) (chat : Nat) (text : String) : BotState :=
  if text ∈ CATEGORIES then
    match alGet st.in_progress chat with
    | none => st
    | some prog =>
      let prog' := { prog with category := some text, stage := "calendar" }
      { st with in_progress := alSet st.in_progress chat prog' }
  else st

/-- `_route_message`: free text with no session gets a guidance message; a
session in stage `category` goes to `_handle_category`, stage `fields` to
`_handle_form_field`, and any other stage only gets "Please follow the
prompts in order." -/
def routeMessage (st : BotState) (chat : Nat) (text : String)
    (freshId : String) (today : PDate) : BotState :=
  match alGet st.in_progress chat with
  | none => st
  | some prog =>
    if prog.stage = "category" then handleCategory st chat text
    else if prog.stage = "fields" then handleFormField st chat text freshId today
    else st

/-- `_finalize_booking` for callback data `confirm:{booking_id}`: require a
session whose `preview` matches the id; re-check availability of the
preview's `(date, slot)`; on conflict set the session's stage back to `time`
and re-offer slots; otherwise set the request's status to `pending_admin` and
`_save_request` it (which also clears the session). -/
def finalizeBooking (st : BotState) (chat : Nat) (bid : String) : BotState :=
  match alGet st.in_progress chat with
  | none => st
  | some prog =>
    match prog.preview with
    | none => st
    | some request =>
      if request.booking_id ≠ bid then st
      else if request.time_slot ∈ availableSlots st request.appointment_date then
        saveRequest st { request with status := "pending_admin" }
      else
        { st with in_progress := alSet st.in_progress chat { prog with stage := "time" } }

/-! ## Concrete fixtures (used by witnesses and counterexamples) -/

def cDate : PDate := ⟨10, 6, 2024⟩

def cDob : PDate := ⟨1, 1, 2000⟩

def cToday : PDate := ⟨12, 10, 2026⟩

def cIdentity : Identity := { date_of_birth := cDob }

/-- A completed draft booking for user 1 at `(cDate, 10:00)`. -/
def cReq1 : BookingRequest :=
  { user_id := 1, category := "New registration", appointment_date := cDate,
    time_slot := 10, identity := cIdentity, address := {}, booking_id := "b1" }

/-- The same `(date, slot)` drafted by user 2. -/
def cReq2 : BookingRequest := { cReq1 with user_id := 2, booking_id := "b2" }

def cProg1 : Progress :=
  { stage := "fields", field_index := 12, date := some cDate, time := some 10,
    preview := some cReq1 }

def cProg2 : Progress := { cProg1 with preview := some cReq2 }

/-- Two users, each with a pending preview of the same `(date, slot)`. -/
def cSt : BotState := { in_progress := [(1, cProg1), (2, cProg2)] }

/-- The store after user 1's booking was submitted: primary index, user
index and slot registry all populated, status `pending_admin`. -/
def cStSaved : BotState :=
  { requests := [("b1", { cReq1 with status := "pending_admin" })],
    user_requests := [(1, ["b1"])],
    booked_slots := [(cDate, [(10, "b1")])] }

/-- A session for user 7 sitting at the last form field (index 12), with
category, date and time already chosen. -/
def cProgLast : Progress :=
  { stage := "fields", field_index := 12, date := some cDate, time := some 10,
    category := some "New registration" }

def cStF : BotState := { in_progress := [(7, cProgLast)] }

/-- A session for user 7 at the first form field. -/
def cProgFirst : Progress :=
  { stage := "fields", field_index := 0, date := some cDate, time := some 10,
    category := some "New registration" }

def cStF0 : BotState := { in_progress := [(7, cProgFirst)] }

/-! ## Registry lemmas -/

theorem mem_availableSlotsReg (bk : SlotRegistry) (d : PDate) (t : Nat) :
    t ∈ availableSlotsReg bk d ↔ t ∈ TIME_SLOTS ∧ slotHolder bk d t = none := by
  unfold availableSlotsReg slotHolder
  simp [List.mem_filter, Option.isNone_iff_eq_none]

theorem slotHolder_recordSlot_self (bk : SlotRegistry) (d : PDate) (t : Nat) (bid : String) :
    slotHolder (recordSlot bk d t bid) d t = some bid := by
  unfold slotHolder recordSlot
  rw [alGet_alSet_self]
  simp [alGet_alSet_self]

theorem slotHolder_releaseSlot_self (bk : SlotRegistry) (d : PDate) (t : Nat)
    (hnd : (((alGet bk d).getD []).map Prod.fst).Nodup) :
    slotHolder (releaseSlot bk d t) d t = none := by
  unfold slotHolder releaseSlot
  cases h : alGet bk d with
  | none => simp [h]
  | some m =>
    rw [h] at hnd
    simp only [Option.getD_some] at hnd
    rw [alGet_alSet_self]
    simp only [Option.getD_some]
    exact alGet_alPop_self m t hnd

/-! ## C3: available slots -/

/-- C3: for every date `d`, `availableSlots d` returns exactly the fixed
five-element slot enumeration minus the slots recorded as reserved for `d`
in the registry, in the fixed enumeration order (it is a sublist of
`TIME_SLOTS`, hence keeps the enumeration order). -/
theorem availableSlots_spec (st : BotState) (d : PDate) :
    (∀ t, t ∈ availableSlots st d ↔
      t ∈ TIME_SLOTS ∧ slotReservedReg st.booked_slots d t = false)
    ∧ List.Sublist (availableSlots st d) TIME_SLOTS := by
  constructor
  · intro t
    rw [availableSlots, mem_availableSlotsReg]
    cases h : slotHolder st.booked_slots d t <;> simp [slotReservedReg, h]
  · unfold availableSlots availableSlotsReg
    exact List.filter_sublist TIME_SLOTS

/-! ## C2: reservation conflicts -/

/-- C2: the code's reservation step (availability re-check at confirmation,
then the registry write) fails whenever `(d, t)` is already present in the
registry, and otherwise records the pair under the given booking id; while a
reservation stands, reserving the same pair never succeeds, and releasing the
pair and then reserving it with a different booking id succeeds. The
`Nodup` hypothesis states that the inner per-date table has at most one entry
per slot, which is true of every dict the code builds. -/
theorem reserve_spec (bk : SlotRegistry) (d : PDate) (t : Nat) (bid bid' : String)
    (ht : t ∈ TIME_SLOTS)
    (hnd : (((alGet bk d).getD []).map Prod.fst).Nodup) :
    (slotReservedReg bk d t = true → reserve bk d t bid = none)
    ∧ (slotReservedReg bk d t = false →
        ∃ bk₁, reserve bk d t bid = some bk₁ ∧ slotHolder bk₁ d t = some bid)
    ∧ (∃ bk₂, reserve (releaseSlot bk d t) d t bid' = some bk₂
        ∧ slotHolder bk₂ d t = some bid') := by
  refine ⟨?_, ?_, ?_⟩
  · intro h
    unfold reserve
    rw [if_neg]
    intro hmem
    rw [mem_availableSlotsReg] at hmem
    rw [slotReservedReg, hmem.2] at h
    simp at h
  · intro h
    unfold reserve
    rw [if_pos]
    · exact ⟨_, rfl, slotHolder_recordSlot_self bk d t bid⟩
    · rw [mem_availableSlotsReg]
      refine ⟨ht, ?_⟩
      rw [slotReservedReg] at h
      cases hh : slotHolder bk d t
      · rfl
      · rw [hh] at h; simp at h
  · unfold reserve
    rw [if_pos]
    · exact ⟨_, rfl, slotHolder_recordSlot_self _ d t bid'⟩
    · rw [mem_availableSlotsReg]
      exact ⟨ht, slotHolder_releaseSlot_self bk d t hnd⟩

/-- Witness for C2 at a concrete registry: `(cDate, 10)` is held by `"b1"`,
so reserving it again fails, while releasing it and reserving for `"b2"`
succeeds and records `"b2"`. -/
theorem reserve_spec_witness :
    reserve [(PDate.mk 10 6 2024, [(10, "b1")])] (PDate.mk 10 6 2024) 10 "b9" = none
    ∧ ∃ bk₂,
        reserve (releaseSlot [(PDate.mk 10 6 2024, [(10, "b1")])] (PDate.mk 10 6 2024) 10)
          (PDate.mk 10 6 2024) 10 "b2" = some bk₂
        ∧ slotHolder bk₂ (PDate.mk 10 6 2024) 10 = some "b2" := by
  have h := reserve_spec [(PDate.mk 10 6 2024, [(10, "b1")])] (PDate.mk 10 6 2024) 10
    "b9" "b2" (by decide) (by decide)
  exact ⟨h.1 (by decide), h.2.2⟩

/-! ## C8 and C9: the postal-code validator -/

theorem all_filter_ne_space (l : List Char) :
    ((l.filter (fun c => c ≠ ' ')).all Char.isAlphanum)
      = l.all (fun c => c = ' ' || c.isAlphanum) := by
  induction l with
  | nil => rfl
  | cons c cs ih => by_cases h : c = ' ' <;> simp [List.filter_cons, h, ih]

theorem any_ne_space_of_filter (l : List Char) :
    (!(l.filter (fun c => c ≠ ' ')).isEmpty) = l.any (fun c => c ≠ ' ') := by
  induction l with
  | nil => rfl
  | cons c cs ih =>
    by_cases h : c = ' '
    · simpa [List.filter_cons, h] using ih
    · simp [List.filter_cons, h]

/-- C8 counterexample: on input `"A2  1B4"` the code's validator succeeds
(removing all spaces leaves the alphanumeric `"A21B4"`), yet the claim's
condition — every character other than the 4th alphanumeric — fails, because
the character at index 2 is a space. -/
theorem parsePostalCode_claim_cex :
    (parsePostalCode "A2  1B4").1 = true ∧ specPostalValid "A2  1B4" = false := by
  decide

/-- C8 amended: the validator uppercases and trims the raw input and succeeds
exactly when the cleaned string has exactly 7 characters, its 4th character
is a space, at least one character is not a space, and every character is a
space or alphanumeric (spaces at positions other than the 4th are tolerated,
since the code removes all spaces before its alphanumeric check); the result
always carries the format hint "Please use the format A2A 1B4.". -/
theorem parsePostalCode_amended_spec (raw : String) :
    (parsePostalCode raw).1 = amendedPostalValid raw
    ∧ (parsePostalCode raw).2.2 = some "Please use the format A2A 1B4." := by
  refine ⟨?_, rfl⟩
  show (_ && _ && pyIsAlnum (removeSpaces (pyUpper (pyStrip raw)))) = _
  have key : pyIsAlnum (removeSpaces (pyUpper (pyStrip raw)))
      = ((pyUpper (pyStrip raw)).data.any (fun c => c ≠ ' ')
         && (pyUpper (pyStrip raw)).data.all (fun c => c = ' ' || c.isAlphanum)) := by
    show ((!((pyUpper (pyStrip raw)).data.filter (fun c => c ≠ ' ')).isEmpty)
        && ((pyUpper (pyStrip raw)).data.filter (fun c => c ≠ ' ')).all Char.isAlphanum) = _
    rw [all_filter_ne_space, any_ne_space_of_filter]
  rw [key, amendedPostalValid]
  simp only [String.length]
  simp [Bool.and_assoc]

/-- C9 counterexample: the spec's third example `"AAAA BBB"` is judged
invalid by the code, not valid — the cleaned string has 8 characters, so the
length-7 check fails (and its 4th character is `A`, not a space). -/
theorem postal_examples_cex : (parsePostalCode "AAAA BBB").1 = false := by
  decide

/-- C9 amended: `"A2A 1B4"` is valid; `"A2A1B4"` (no space) is invalid;
`"AAAA BBB"` is invalid (8 characters, failing the length check); the
seven-character all-letter `"AAA BBB"` is valid, confirming that only
length/space/alphanumeric are checked and not a letter/digit alternation
pattern. -/
theorem postal_examples_amended :
    (parsePostalCode "A2A 1B4").1 = true
    ∧ (parsePostalCode "A2A1B4").1 = false
    ∧ (parsePostalCode "AAAA BBB").1 = false
    ∧ (parsePostalCode "AAA BBB").1 = true := by
  decide

/-! ## C4 and C10: admin decisions -/

/-- C4 counterexample: starting from the submitted booking (`pending_admin`),
an admin `accept` sets the status to `accepted` — and a subsequent admin
`deny` on the very same booking changes it again, to `denied`: the handler
never checks that the booking is still `pending_admin`, so `accepted` and
`denied` are not terminal. -/
theorem adminDecision_not_terminal_cex :
    (alGet (adminDecision cStSaved "accept" "b1").requests "b1").map BookingRequest.status
      = some "accepted"
    ∧ (alGet (adminDecision (adminDecision cStSaved "accept" "b1") "deny" "b1").requests
        "b1").map BookingRequest.status = some "denied" := by
  exact ⟨rfl, rfl⟩

/-- C4 amended: an admin decision on a booking present in the store sets its
status to `accepted` when the decision is `accept` and to `denied` otherwise,
regardless of the booking's current status; the handler does not restrict
itself to `pending_admin` bookings, so a later decision can overwrite an
earlier `accepted` or `denied` status. A decision on an absent booking id
changes nothing. -/
theorem adminDecision_sets_status (st : BotState) (dec bid : String)
    (req : BookingRequest) (h : alGet st.requests bid = some req) :
    alGet (adminDecision st dec bid).requests bid
      = some { req with status := if dec = "accept" then "accepted" else "denied" }
    ∧ (∀ st' : BotState, alGet st'.requests bid = none → adminDecision st' dec bid = st') := by
  constructor
  · unfold adminDecision
    rw [h]
    exact alGet_alSet_self st.requests bid _
  · intro st' h'
    unfold adminDecision
    rw [h']

/-- Witness for C4's amended theorem: applying it to the concrete submitted
store, an `accept` decision yields status `accepted` even though a second
application (see the counterexample) could overwrite it. -/
theorem adminDecision_sets_status_witness :
    alGet (adminDecision cStSaved "accept" "b1").requests "b1"
      = some { cReq1 with status := "accepted" } := by
  have h := adminDecision_sets_status cStSaved "accept" "b1"
    { cReq1 with status := "pending_admin" } (by decide)
  simpa using h.1

/-- C10: an admin decision mutates only the status field of the targeted
booking: the slot registry, the per-user index and the sessions are
untouched, every other booking is untouched, every date's available-slot
list is unchanged, and in particular a booking's reserved `(date, slot)`
pair stays absent from `availableSlots` after the decision (e.g. after a
deny) — it is only freed by an explicit cancellation. -/
theorem adminDecision_frame (st : BotState) (dec bid : String)
    (req : BookingRequest) (h : alGet st.requests bid = some req) :
    (adminDecision st dec bid).booked_slots = st.booked_slots
    ∧ (adminDecision st dec bid).user_requests = st.user_requests
    ∧ (adminDecision st dec bid).in_progress = st.in_progress
    ∧ alGet (adminDecision st dec bid).requests bid
        = some { req with status := if dec = "accept" then "accepted" else "denied" }
    ∧ (∀ b', b' ≠ bid →
        alGet (adminDecision st dec bid).requests b' = alGet st.requests b')
    ∧ (∀ d, availableSlots (adminDecision st dec bid) d = availableSlots st d)
    ∧ (slotReservedReg st.booked_slots req.appointment_date req.time_slot = true →
        req.time_slot ∉ availableSlots (adminDecision st dec bid) req.appointment_date) := by
  have hbk : (adminDecision st dec bid).booked_slots = st.booked_slots := by
    unfold adminDecision; rw [h]
  refine ⟨hbk, by unfold adminDecision; rw [h], by unfold adminDecision; rw [h], ?_, ?_, ?_, ?_⟩
  · unfold adminDecision
    rw [h]
    exact alGet_alSet_self st.requests bid _
  · intro b' hb
    unfold adminDecision
    rw [h]
    exact alGet_alSet_ne st.requests bid b' _ (fun he => hb he.symm)
  · intro d
    unfold availableSlots
    rw [hbk]
  · intro hres hmem
    unfold availableSlots at hmem
    rw [hbk, mem_availableSlotsReg] at hmem
    rw [slotReservedReg, hmem.2] at hres
    simp at hres

/-- Witness for C10 at the concrete submitted store: a `deny` decision keeps
slot 10 of `cDate` out of the available list and leaves registry and user
index unchanged. -/
theorem adminDecision_frame_witness :
    (adminDecision cStSaved "deny" "b1").booked_slots = cStSaved.booked_slots
    ∧ (adminDecision cStSaved "deny" "b1").user_requests = cStSaved.user_requests
    ∧ (10 : Nat) ∉ availableSlots (adminDecision cStSaved "deny" "b1") cDate := by
  have h := adminDecision_frame cStSaved "deny" "b1"
    { cReq1 with status := "pending_admin" } (by decide)
  exact ⟨h.1, h.2.1, h.2.2.2.2.2.2 (by decide)⟩

/-! ## C6: cancellation -/

theorem cancelRequest_none (st : BotState) (bid : String)
    (h : alGet st.requests bid = none) : cancelRequest st bid = (st, none) := by
  unfold cancelRequest
  rw [h]

theorem cancelRequest_some (st : BotState) (bid : String) (req : BookingRequest)
    (h : alGet st.requests bid = some req) :
    (cancelRequest st bid).2 = some req
    ∧ (cancelRequest st bid).1.requests = alPop st.requests bid
    ∧ (cancelRequest st bid).1.booked_slots
        = releaseSlot st.booked_slots req.appointment_date req.time_slot
    ∧ (∀ l, alGet st.user_requests req.user_id = some l →
        alGet (cancelRequest st bid).1.user_requests req.user_id = some (l.erase bid)) := by
  unfold cancelRequest
  rw [h]
  cases halu : alGet st.user_requests req.user_id with
  | none =>
    simp only [halu]
    refine ⟨trivial, trivial, trivial, ?_⟩
    intro l hl
    exact Option.noConfusion hl
  | some l =>
    simp only [halu]
    refine ⟨trivial, trivial, trivial, ?_⟩
    intro l' hl'
    injection hl' with he
    subst he
    exact alGet_alSet_self _ _ _

/-- C6: canceling a booking id absent from the store is a no-op reporting
"Nothing to cancel.", and canceling an existing booking reports
"Booking canceled.", removes it from the primary index and the owning
user's index, clears its registry entry, and makes its `(date, slot)` pair
reappear in `availableSlots`. The two `Nodup` hypotheses say the primary
index and the inner per-date slot table have no duplicate keys, which holds
for every dict the code builds. -/
theorem cancelBooking_spec (st : BotState) (bid : String) :
    (alGet st.requests bid = none → cancelBooking st bid = (st, "Nothing to cancel."))
    ∧ (∀ req, alGet st.requests bid = some req →
        (st.requests.map Prod.fst).Nodup →
        (((alGet st.booked_slots req.appointment_date).getD []).map Prod.fst).Nodup →
        (cancelBooking st bid).2 = "Booking canceled."
        ∧ alGet (cancelBooking st bid).1.requests bid = none
        ∧ (∀ l, alGet st.user_requests req.user_id = some l →
            alGet (cancelBooking st bid).1.user_requests req.user_id = some (l.erase bid))
        ∧ slotHolder (cancelBooking st bid).1.booked_slots
            req.appointment_date req.time_slot = none
        ∧ (req.time_slot ∈ TIME_SLOTS →
            req.time_slot ∈ availableSlots (cancelBooking st bid).1 req.appointment_date)) := by
  constructor
  · intro h
    have hnone := cancelRequest_none st bid h
    unfold cancelBooking
    rw [hnone]
  · intro req h hnd hnds
    obtain ⟨h2, hreqs, hbk, hur⟩ := cancelRequest_some st bid req h
    have hcb : cancelBooking st bid = ((cancelRequest st bid).1, "Booking canceled.") := by
      unfold cancelBooking
      rcases hcr : cancelRequest st bid with ⟨st', r⟩
      rw [hcr] at h2
      simp only at h2
      subst h2
      rfl
    have hslot : slotHolder (cancelRequest st bid).1.booked_slots
        req.appointment_date req.time_slot = none := by
      rw [hbk]
      exact slotHolder_releaseSlot_self st.booked_slots _ _ hnds
    refine ⟨by rw [hcb], ?_, ?_, ?_, ?_⟩
    · rw [hcb, hreqs]
      exact alGet_alPop_self st.requests bid hnd
    · intro l hl
      rw [hcb]
      exact hur l hl
    · rw [hcb]
      exact hslot
    · intro ht
      rw [hcb, availableSlots, mem_availableSlotsReg]
      exact ⟨ht, hslot⟩

/-- Witness for C6 at the concrete submitted store: canceling the unknown id
`"zz"` is a no-op reporting "Nothing to cancel.", while canceling `"b1"`
reports "Booking canceled.", removes it, and slot 10 of `cDate` reappears in
the available list. -/
theorem cancelBooking_spec_witness :
    cancelBooking cStSaved "zz" = (cStSaved, "Nothing to cancel.")
    ∧ (cancelBooking cStSaved "b1").2 = "Booking canceled."
    ∧ alGet (cancelBooking cStSaved "b1").1.requests "b1" = none
    ∧ (10 : Nat) ∈ availableSlots (cancelBooking cStSaved "b1").1 cDate := by
  have h := cancelBooking_spec cStSaved "zz"
  have h2 := cancelBooking_spec cStSaved "b1"
  obtain ⟨a, b, _, _, e⟩ :=
    h2.2 { cReq1 with status := "pending_admin" } (by decide) (by decide) (by decide)
  exact ⟨h.1 (by decide), a, b, e (by decide)⟩

/-! ## C7: validation failure leaves the session unchanged -/

/-- C7: in the fields stage, when the validator of the field at the current
index rejects the raw input, handling that input returns the state unchanged:
the session's field index stays where it was and every previously accumulated
field value is untouched. -/
theorem handleFormField_failure_frame (st : BotState) (chat : Nat)
    (text freshId : String) (today : PDate) (prog : Progress)
    (key prompt : String) (parser : FieldParser) (v : PyVal) (e : Option String)
    (hp : alGet st.in_progress chat = some prog)
    (hf : formFields.get? prog.field_index = some (key, prompt, parser))
    (hv : parser text = (false, v, e)) :
    handleFormField st chat text freshId today = st := by
  unfold handleFormField
  simp only [hp, hf, hv]

/-- Witness for C7: user 7's session at field index 0 (first name, a
required-text field), fed the all-whitespace input `"   "`, is left exactly
as it was. -/
theorem handleFormField_failure_frame_witness :
    handleFormField cStF0 7 "   " "idA" cToday = cStF0 := by
  exact handleFormField_failure_frame cStF0 7 "   " "idA" cToday cProgFirst
    "first_name" "Enter your first name:" parseRequiredText
    (PyVal.vStr "") (some "This field is required.") rfl rfl rfl

/-! ## C5: form completion -/

/-- C5 counterexample: starting from a session sitting at the last form field
(index 12), a valid postal code is accepted and the draft preview is
assembled — but the session's stage is still `"fields"` and its field index
is still 12, so a subsequent free-text message routed through the message
router is again treated as form-field input: it overwrites the stored postal
value (and regenerates the preview). The session never reaches a distinct
confirmation stage. -/
theorem fields_stage_after_completion_cex :
    ((alGet (handleFormField cStF 7 "A2A 1B4" "idA" cToday).in_progress 7).map
        Progress.stage = some "fields")
    ∧ ((alGet (handleFormField cStF 7 "A2A 1B4" "idA" cToday).in_progress 7).map
        Progress.field_index = some 12)
    ∧ ((alGet (routeMessage (handleFormField cStF 7 "A2A 1B4" "idA" cToday) 7 "B3B 2C5"
          "idB" cToday).in_progress 7).map (fun p => alGet p.fields "postal")
        = some (some (PyVal.vStr "B3B 2C5"))) := by
  exact ⟨rfl, rfl, rfl⟩

/-- C5 amended: in the fields stage, when the validator for the field at the
current index succeeds, the typed value is stored under that field's key and
the index advances; when the incremented index reaches the end of the
13-entry field list, the session assembles a draft Booking Request with
status `pending_user` and stores it as the session's preview — but the
session's stage remains `"fields"` and its field index remains at the last
entry (the code returns before updating either), so subsequent free-text
input is still treated as form-field input for the last field. -/
theorem handleFormField_success_spec (st : BotState) (chat : Nat)
    (text freshId : String) (today : PDate) (prog : Progress)
    (key prompt : String) (parser : FieldParser) (v : PyVal) (e : Option String)
    (d : PDate) (t : Nat)
    (hp : alGet st.in_progress chat = some prog)
    (hf : formFields.get? prog.field_index = some (key, prompt, parser))
    (hv : parser text = (true, v, e))
    (hd : prog.date = some d) (ht : prog.time = some t) :
    (prog.field_index + 1 < formFields.length →
      alGet (handleFormField st chat text freshId today).in_progress chat
        = some { prog with fields := alSet prog.fields key v,
                           field_index := prog.field_index + 1 })
    ∧ (prog.field_index + 1 ≥ formFields.length →
      ∃ r : BookingRequest,
        alGet (handleFormField st chat text freshId today).in_progress chat
          = some { prog with fields := alSet prog.fields key v, preview := some r }
        ∧ r.status = "pending_user" ∧ r.booking_id = freshId ∧ r.user_id = chat
        ∧ r.appointment_date = d ∧ r.time_slot = t) := by
  constructor
  · intro hlt
    unfold handleFormField
    simp only [hp, hf, hv]
    rw [if_neg (by omega)]
    exact alGet_alSet_self _ _ _
  · intro hge
    unfold handleFormField
    simp only [hp, hf, hv]
    rw [if_pos hge]
    unfold promptConfirmation
    rw [alGet_alSet_self]
    simp only [hd, ht]
    exact ⟨_, alGet_alSet_self _ _ _, rfl, rfl, rfl, rfl, rfl⟩

/-- Witness for C5's amended theorem at the concrete last-field session: the
valid postal code is stored, the preview is a `pending_user` draft with the
fresh id, and (per the record equation) stage and field index are unchanged. -/
theorem handleFormField_success_spec_witness :
    ∃ r : BookingRequest,
      alGet (handleFormField cStF 7 "A2A 1B4" "idA" cToday).in_progress 7
        = some { cProgLast with
            fields := alSet cProgLast.fields "postal" (PyVal.vStr "A2A 1B4"),
            preview := some r }
      ∧ r.status = "pending_user" ∧ r.booking_id = "idA" ∧ r.user_id = 7
      ∧ r.appointment_date = cDate ∧ r.time_slot = 10 := by
  have h := handleFormField_success_spec cStF 7 "A2A 1B4" "idA" cToday cProgLast
    "postal" "Postal code (format A2A 1B4):" parsePostalCode
    (PyVal.vStr "A2A 1B4") (some "Please use the format A2A 1B4.") cDate 10
    rfl rfl rfl rfl rfl
  exact h.2 (by decide)

/-! ## C1: confirmation re-checks availability -/

/-- C1: on explicit confirm with a pending preview matching the booking id,
the availability of the preview's `(date, slot)` is re-checked. If the slot
is still available it is reserved (the registry then holds the booking id),
the booking is persisted with status `pending_admin` in the primary index and
the user's index, and the session is cleared. If it is no longer available,
the primary index, the user index and the registry are all unchanged and the
session is routed back to the time-selection stage. Instantiating the second
branch after a first user's confirm yields the two-user race of the claim
(see the witness). The `Nodup` hypothesis says no user has two sessions,
which holds for every dict the code builds. -/
theorem finalizeBooking_spec (st : BotState) (chat : Nat) (bid : String)
    (prog : Progress) (req : BookingRequest)
    (hp : alGet st.in_progress chat = some prog)
    (hprev : prog.preview = some req)
    (hbid : req.booking_id = bid)
    (huser : req.user_id = chat)
    (hnd : (st.in_progress.map Prod.fst).Nodup) :
    (req.time_slot ∈ availableSlots st req.appointment_date →
      alGet (finalizeBooking st chat bid).requests bid
          = some { req with status := "pending_admin" }
      ∧ bid ∈ (alGet (finalizeBooking st chat bid).user_requests chat).getD []
      ∧ slotHolder (finalizeBooking st chat bid).booked_slots
          req.appointment_date req.time_slot = some bid
      ∧ alGet (finalizeBooking st chat bid).in_progress chat = none)
    ∧ (req.time_slot ∉ availableSlots st req.appointment_date →
      (finalizeBooking st chat bid).requests = st.requests
      ∧ (finalizeBooking st chat bid).user_requests = st.user_requests
      ∧ (finalizeBooking st chat bid).booked_slots = st.booked_slots
      ∧ alGet (finalizeBooking st chat bid).in_progress chat
          = some { prog with stage := "time" }) := by
  subst hbid
  subst huser
  have hred : finalizeBooking st req.user_id req.booking_id
      = if req.time_slot ∈ availableSlots st req.appointment_date then
          saveRequest st { req with status := "pending_admin" }
        else { st with in_progress := alSet st.in_progress req.user_id { prog with stage := "time" } } := by
    unfold finalizeBooking
    simp only [hp, hprev]
    rw [if_neg (fun h => h rfl)]
  constructor
  · intro hmem
    rw [hred, if_pos hmem]
    unfold saveRequest
    refine ⟨alGet_alSet_self _ _ _, ?_, slotHolder_recordSlot_self _ _ _ _, ?_⟩
    · rw [alGet_alSet_self]
      simp
    · exact alGet_alPop_self st.in_progress req.user_id hnd
  · intro hmem
    rw [hred, if_neg hmem]
    exact ⟨rfl, rfl, rfl, alGet_alSet_self _ _ _⟩

/-- Witness for C1: the two-user race. Both users hold previews of
`(cDate, 10:00)`. User 1 confirms first: the booking is stored with status
`pending_admin` and their session is cleared. User 2 then confirms: the
re-check rejects it, nothing new is stored, and user 2's session is routed
back to the `time` stage. -/
theorem finalizeBooking_spec_witness :
    alGet (finalizeBooking cSt 1 "b1").requests "b1"
        = some { cReq1 with status := "pending_admin" }
    ∧ alGet (finalizeBooking cSt 1 "b1").in_progress 1 = none
    ∧ (finalizeBooking (finalizeBooking cSt 1 "b1") 2 "b2").requests
        = (finalizeBooking cSt 1 "b1").requests
    ∧ alGet (finalizeBooking (finalizeBooking cSt 1 "b1") 2 "b2").in_progress 2
        = some { cProg2 with stage := "time" } := by
  have h1 := finalizeBooking_spec cSt 1 "b1" cProg1 cReq1 rfl rfl rfl rfl (by decide)
  have h2 := finalizeBooking_spec (finalizeBooking cSt 1 "b1") 2 "b2" cProg2 cReq2
    (by decide) rfl rfl rfl (by decide)
  obtain ⟨a1, _, _, a4⟩ := h1.1 (by decide)
  obtain ⟨b1, _, _, b4⟩ := h2.2 (by decide)
  exact ⟨a1, a4, b1, b4⟩

end EsimBot
